import Mathlib

/-!
Verification development for `ml_prediction.py`, a small experiment-running
script that loads feature/outcome tables, splits patients into a fixed
train/test partition, optionally grid-searches hyperparameters, evaluates a
model by 5-fold cross-validation and on a held-out test set, and appends a
results row to a CSV log.

The scikit-learn library is an external collaborator; it is modelled by the
`SKEnv` structure below: a deterministic fit-and-predict oracle keyed by the
method name and the `random_state` seed passed to the constructor, a shuffle
permutation oracle for `KFold(shuffle=True, random_state=...)`, and a
grid-search oracle.  The fold geometry of `KFold` (contiguous chunks of the
shuffled index permutation, sizes `n // k` with the first `n % k` folds one
larger, test indices reported in ascending order) is embedded concretely,
following its documented behaviour.

Numbers are embedded as exact rationals.  `pandas.std` involves a square
root; `ratSqrt` below computes it exactly on rationals whose numerator and
denominator are perfect squares, and every concrete evaluation in this file
stays inside that fragment.
-/

/-- Parameter value of the `params` dictionary: either a single scalar
setting or a candidate list, as in the Python dict whose values "can be
lists".  Scalar payloads are kept abstract as strings. -/
inductive PVal where
  | s (v : String)
  | l (vs : List String)
deriving DecidableEq

/-- The `params` dictionary: an insertion-ordered association list, like a
Python dict. -/
abbrev Params := List (String × PVal)

/-- Python `isinstance(v, list)` test on a parameter value. -/
def PVal.isList : PVal → Bool
  | .s _ => false
  | .l _ => true

/-- scalar test (negation of `isList`). -/
def PVal.isScalar : PVal → Bool
  | .s _ => true
  | .l _ => false

/-- Search-mode coercion, `ml_prediction.py` lines 64-67: every value that
is not a list is wrapped into a singleton list. -/
def listifyParams (ps : Params) : Params :=
  ps.map (fun kv =>
    match kv.2 with
    | PVal.l vs => (kv.1, PVal.l vs)
    | PVal.s x => (kv.1, PVal.l [x]))

/-- Fixed-mode coercion, `ml_prediction.py` lines 72-76: every list value is
replaced by its first element (`params[k] = v[0]`); a non-list value is kept
as-is.  `v[0]` on an empty list raises `IndexError`, modelled by `none`. -/
def resolveFixed : Params → Option Params
  | [] => some []
  | (_, PVal.l []) :: _ => none
  | (k, PVal.l (x :: _)) :: rest => (resolveFixed rest).map (fun r => (k, PVal.s x) :: r)
  | (k, PVal.s x) :: rest => (resolveFixed rest).map (fun r => (k, PVal.s x) :: r)

/-- Modelled from the claim/spec wording of C9 only (to be compared with
`resolveFixed`, which is translated from the source): "if given as a list,
take its first element as the scalar setting; otherwise use as-is". -/
def firstElem : PVal → PVal
  | PVal.s x => PVal.s x
  | PVal.l [] => PVal.l []
  | PVal.l (x :: _) => PVal.s x

/-- Python dict store `d[k] = v`: replace the value in place if the key is
present, otherwise append the new key at the end (insertion order). -/
def setParam (ps : Params) (k : String) (v : PVal) : Params :=
  if ps.any (fun kv => kv.1 == k) then
    ps.map (fun kv => if kv.1 == k then (k, v) else kv)
  else ps ++ [(k, v)]

/-- Dict lookup. -/
def lookupParam (ps : Params) (k : String) : Option PVal :=
  (ps.find? (fun kv => kv.1 == k)).map (fun kv => kv.2)

/-- Cross-validation fold count of the grid search, `ml_prediction.py` line
115: `cv = min(5, int(len(yTrain)/2))`. -/
def cvFolds (n : ℕ) : ℕ := min 5 (n / 2)

/-- The method names handled by the `if/elif` chains of
`search_model_params`, `validate_model` and `test_model`. -/
def methodSupported (m : String) : Bool :=
  m == "RFreg" || m == "RFclass" || m == "LogReg"

/-- The console message printed by the `else` branches (lines 111, 148, 207). -/
def notImplementedMsg (m : String) : String :=
  "Method \"" ++ m ++ "\" is not implemented in ml_prediction.py"

/-- Console output of one function call: an error message, or the metrics
block that `print_metrics` derives from a true/predicted pair. -/
inductive ConsoleOut where
  | msg (s : String)
  | printedMetrics (yTrue yPred : List ℚ)
deriving DecidableEq

/-- `np.round` on one value: round half to even, `ml_prediction.py` lines
230 and 258-259 (the subsequent `.astype(int)` is exact on the already
integral rounded value). -/
def npRound (q : ℚ) : ℤ :=
  let f := ⌊q⌋
  let r := q - (f : ℚ)
  if r < 1 / 2 then f
  else if 1 / 2 < r then f + 1
  else if f % 2 = 0 then f else f + 1

/-- `np.round(yPredReg).astype(int)`: the predicted-class array used for all
classification-style metrics. -/
def toPredClass (yPredReg : List ℚ) : List ℤ := yPredReg.map npRound

/-- Column mean, `DataFrame.mean()` on one column. -/
def colMean (xs : List ℚ) : ℚ := xs.sum / (xs.length : ℚ)

/-- Column sample variance (`ddof = 1`), the square of `DataFrame.std()`. -/
def colVar (xs : List ℚ) : ℚ :=
  ((xs.map (fun x => (x - colMean xs) ^ 2)).sum) / ((xs.length : ℚ) - 1)

/-- Exact rational square root: precise whenever numerator and denominator
are perfect squares, which covers every concrete use in this file. -/
def ratSqrt (q : ℚ) : ℚ := (Nat.sqrt q.num.toNat : ℚ) / (Nat.sqrt q.den : ℚ)

/-- Column sample standard deviation, `DataFrame.std()` on one column. -/
def colStd (xs : List ℚ) : ℚ := ratSqrt (colVar xs)

/-- Column view of a row-major rectangular matrix (the columns a DataFrame
aggregates over). -/
def colsOf (X : List (List ℚ)) : List (List ℚ) :=
  match X with
  | [] => []
  | r0 :: _ => (List.range r0.length).map (fun j => X.map (fun row => row.getD j 0))

/-- Apply `(x - m) / s` across one row, with per-column constants `ms`,
`ss` (pandas broadcasting of `(X - X.mean()) / X.std()`). -/
def stdRowWith (ms ss : List ℚ) (row : List ℚ) : List ℚ :=
  (row.zip (ms.zip ss)).map (fun p => (p.1 - p.2.1) / p.2.2)

/-- `(X - X.mean()) / X.std()` on a whole row-major matrix:
`ml_prediction.py` lines 146 and 204. -/
def standardizeMatrix (X : List (List ℚ)) : List (List ℚ) :=
  let ms := (colsOf X).map colMean
  let ss := (colsOf X).map colStd
  X.map (stdRowWith ms ss)

/-- Lines 204-205 of `test_model` for `LogReg`, exactly as written:
`Xtrain = (Xtrain - Xtrain.mean()) / Xtrain.std()` rebinds `Xtrain` first,
so the second line `Xtest = (Xtest - Xtrain.mean()) / Xtrain.std()` takes
its constants from the already standardized training matrix. -/
def standardizeTrainTest (Xtr Xte : List (List ℚ)) : List (List ℚ) × List (List ℚ) :=
  let Xtr1 := standardizeMatrix Xtr
  let ms := (colsOf Xtr1).map colMean
  let ss := (colsOf Xtr1).map colStd
  (Xtr1, Xte.map (stdRowWith ms ss))

/-- Modelled from the claim/spec wording of C1 only (to be compared with
`standardizeTrainTest`, which is translated from the source): each test
column x becomes `(x - mean(rawTrain)) / std(rawTrain)`, the constants
taken from the raw, untransformed training features. -/
def claimedTestStandardization (Xtr Xte : List (List ℚ)) : List (List ℚ) :=
  let ms := (colsOf Xtr).map colMean
  let ss := (colsOf Xtr).map colStd
  Xte.map (stdRowWith ms ss)

/-- Fold sizes of `sklearn` `KFold(n_splits=k)` on `n` samples: every fold
has `n / k` test samples and the first `n % k` folds have one more. -/
def chunkSizes (n k : ℕ) : List ℕ :=
  (List.range k).map (fun i => n / k + if i < n % k then 1 else 0)

/-- Cut a list into consecutive chunks of the given sizes. -/
def splitIntoChunks {α : Type} : List α → List ℕ → List (List α)
  | _, [] => []
  | xs, s :: ss => xs.take s :: splitIntoChunks (xs.drop s) ss

/-- The held-out index lists produced by `KFold(n_splits=k, shuffle=True)`
on the shuffled index permutation `perm`: consecutive chunks of `perm`,
each reported in ascending order (the splitter converts the chunk through a
boolean mask over `arange(n)`). -/
def kfoldTestFolds (perm : List ℕ) (k : ℕ) : List (List ℕ) :=
  (splitIntoChunks perm (chunkSizes perm.length k)).map (List.insertionSort (· ≤ ·))

/-- `a[testIndex] = vals`: numpy scatter assignment of value `p.2` at
position `p.1` for each pair. -/
def scatterWrite (a : List ℚ) (ps : List (ℕ × ℚ)) : List ℚ :=
  ps.foldl (fun b p => b.set p.1 p.2) a

/-- Iterated scatter assignment over a list of write batches. -/
def scatterAll (a : List ℚ) (ws : List (List (ℕ × ℚ))) : List ℚ :=
  ws.foldl scatterWrite a

/-- The scikit-learn oracle.  `fitPredict m seed ps Xtr ytr Xte` is the
prediction vector of the model family `m`, constructed with
`random_state = seed` and keyword parameters `ps`, after `fit(Xtr, ytr)` and
`predict(Xte)`.  `permute seed n` is the shuffle permutation that
`KFold(shuffle=True, random_state=seed)` applies to `arange(n)`.
`bestParams m grid cv scoring Xtr ytr` is `GridSearchCV(...).best_params_`.
The two contract fields record that `predict` returns one value per test
row and that the shuffle is a permutation of `arange(n)`. -/
structure SKEnv where
  fitPredict : String → ℕ → Params → List (List ℚ) → List ℚ → List (List ℚ) → List ℚ
  permute : ℕ → ℕ → List ℕ
  bestParams : String → Params → ℕ → String → List (List ℚ) → List ℚ → Params
  fitPredict_length : ∀ m s ps Xtr ytr Xte, (fitPredict m s ps Xtr ytr Xte).length = Xte.length
  permute_perm : ∀ s n, (permute s n).Perm (List.range n)

/-- Numpy fancy indexing `xs[idx]` (all indices are in range in every use). -/
def selectIdx {α : Type} (xs : List α) (idx : List ℕ) : List α :=
  idx.filterMap (fun i => xs[i]?)

/-- The `trainIndex` that `KFold.split` yields alongside a held-out chunk
`c`: all indices of `arange(n)` outside `c`, in ascending order. -/
def complementIdx (n : ℕ) (c : List ℕ) : List ℕ :=
  (List.range n).filter (fun i => decide (i ∉ c))

/-- The feature matrix actually used by `validate_model`: for `LogReg` the
training features are standardized in place (line 146) before the fold
loop; other methods use the raw features. -/
def XsOf (m : String) (Xtr : List (List ℚ)) : List (List ℚ) :=
  if m == "LogReg" then standardizeMatrix Xtr else Xtr

/-- `y2 = yTrain.values[testIndex]` of one fold. -/
def trueFor (ytr : List ℚ) (c : List ℕ) : List ℚ := selectIdx ytr c

/-- The out-of-fold prediction vector of one fold `c`: fit on the
complement rows, predict on the fold rows (lines 162-169). -/
def predFor (env : SKEnv) (m : String) (ps : Params) (Xs : List (List ℚ))
    (ytr : List ℚ) (c : List ℕ) : List ℚ :=
  env.fitPredict m 0 ps (selectIdx Xs (complementIdx Xs.length c))
    (selectIdx ytr (complementIdx Xs.length c)) (selectIdx Xs c)

/-- One iteration of the fold loop of `validate_model`:
`yTrue[testIndex] = y2` and `yPredReg[testIndex] = model.predict(X2)`. -/
def foldStep (env : SKEnv) (m : String) (ps : Params) (Xs : List (List ℚ))
    (ytr : List ℚ) (acc : List ℚ × List ℚ) (c : List ℕ) : List ℚ × List ℚ :=
  (scatterWrite acc.1 (c.zip (trueFor ytr c)),
   scatterWrite acc.2 (c.zip (predFor env m ps Xs ytr c)))

/-- The whole fold loop of `validate_model`, starting from the
`np.zeros(len(yTrain.index))` accumulators (lines 156-170); first component
`yTrue`, second `yPredReg`. -/
def foldAccum (env : SKEnv) (m : String) (ps : Params) (Xs : List (List ℚ))
    (ytr : List ℚ) (folds : List (List ℕ)) : List ℚ × List ℚ :=
  folds.foldl (foldStep env m ps Xs ytr)
    (List.replicate ytr.length 0, List.replicate ytr.length 0)

/-- `validate_model` (lines 125-174): construct the model (unsupported
method names print a message and return `None`), standardize the training
features for `LogReg`, run the shuffled 5-fold loop, print metrics, return
`(yTrue, yPredReg)`. -/
def validateModel (env : SKEnv) (Xtr : List (List ℚ)) (ytr : List ℚ)
    (m : String) (ps : Params) : List ConsoleOut × Option (List ℚ × List ℚ) :=
  if methodSupported m then
    let Xs := XsOf m Xtr
    let res := foldAccum env m ps Xs ytr (kfoldTestFolds (env.permute 15 Xs.length) 5)
    ([ConsoleOut.printedMetrics res.1 res.2], some res)
  else ([ConsoleOut.msg (notImplementedMsg m)], none)

/-- `test_model` (lines 176-217): construct the model, for `LogReg` run the
two standardization lines exactly as written, fit on the whole training
set, predict on the test set, print metrics, return `(yTrue, yPredReg)`. -/
def testModel (env : SKEnv) (Xtr Xte : List (List ℚ)) (ytr yte : List ℚ)
    (m : String) (ps : Params) : List ConsoleOut × Option (List ℚ × List ℚ) :=
  if methodSupported m then
    let p := if m == "LogReg" then standardizeTrainTest Xtr Xte else (Xtr, Xte)
    let pred := env.fitPredict m 0 ps p.1 ytr p.2
    ([ConsoleOut.printedMetrics yte pred], some (yte, pred))
  else ([ConsoleOut.msg (notImplementedMsg m)], none)

/-- `search_model_params` (lines 85-123): construct the model (unsupported
method names print a message and return `None`), grid search with
`cv = min(5, int(len(yTrain)/2))`, return `best_params_`. -/
def searchModelParams (env : SKEnv) (Xtr : List (List ℚ)) (ytr : List ℚ)
    (m : String) (ps : Params) (sc : String) : List ConsoleOut × Option Params :=
  if methodSupported m then
    ([], some (env.bestParams m ps (cvFolds ytr.length) sc Xtr ytr))
  else ([ConsoleOut.msg (notImplementedMsg m)], none)

/-- The fixed test-set identifiers, `ml_prediction.py` line 55. -/
def testIds : List ℤ := [1, 8, 13, 20, 40, 44, 49, 55]

/-- Outcome rows kept by `y = y[y['outcome'] >= 0]` (line 45). -/
def filteredOutcomes (manY : List (ℤ × ℚ)) : List (ℤ × ℚ) :=
  manY.filter (fun r => decide (0 ≤ r.2))

/-- `patIds = [id for id in idX if id in idY]` (line 50): the cohort, the
feature-table identifiers that also carry a non-negative outcome. -/
def cohortOf (selX : List (ℤ × List ℚ)) (manY : List (ℤ × ℚ)) : List ℤ :=
  (selX.map (fun r => r.1)).filter (fun i => decide (i ∈ (filteredOutcomes manY).map (fun r => r.1)))

/-- The train/test division of lines 55-61: `trainIds` are the cohort
members outside `testIds`; `.loc[testIds]` raises `KeyError` (modelled by
`none`) when some fixed test identifier is absent from the cohort. -/
def splitCohort (cohort : List ℤ) : Option (List ℤ × List ℤ) :=
  if testIds.all (fun t => decide (t ∈ cohort)) then
    some (testIds, cohort.filter (fun v => decide (v ∉ testIds)))
  else none

/-- `.loc[ids]` row selection from a table keyed by patient identifier. -/
def selectRows {α : Type} (tbl : List (ℤ × α)) (ids : List ℤ) : List α :=
  ids.filterMap (fun i => (tbl.find? (fun r => r.1 == i)).map (fun r => r.2))

/-- `create_evaluate_model` (lines 12-83), over the already parsed and
column-filtered feature table `selX` and outcome table `manY`: filter the
outcomes, intersect the identifier sets, split train/test, resolve the
parameter dictionary (grid search or first-element collapse), run
`validate_model` and `test_model` (a `None` from either aborts the run when
the caller unpacks it), store the `scoringOptiMetric` key into the
parameter dictionary, and return the five outputs. -/
def createEvaluateModel (env : SKEnv) (method : String) (params : Params)
    (selX : List (ℤ × List ℚ)) (manY : List (ℤ × ℚ)) (optimizeParams : Bool)
    (scoring : String) :
    Option (List ℚ × List ℚ × List ℚ × List ℚ × Params) :=
  match splitCohort (cohortOf selX manY) with
  | none => none
  | some (te, tr) =>
    let Xtest := selectRows selX te
    let ytest := selectRows (filteredOutcomes manY) te
    let Xtrain := selectRows selX tr
    let ytrain := selectRows (filteredOutcomes manY) tr
    let psR : Option Params :=
      if optimizeParams then
        (searchModelParams env Xtrain ytrain method (listifyParams params) scoring).2
      else resolveFixed params
    match psR with
    | none => none
    | some ps1 =>
      match (validateModel env Xtrain ytrain method ps1).2 with
      | none => none
      | some (yTrueVal, yPredVal) =>
        match (testModel env Xtrain Xtest ytrain ytest method ps1).2 with
        | none => none
        | some (yTrueTest, yPredTest) =>
          some (yTrueTest, yPredTest, yTrueVal, yPredVal,
            setParam ps1 "scoringOptiMetric" (PVal.s scoring))

/-- The inputs serialized by `write_results_to_csv` (lines 262-294), each
already rendered to its textual cell. -/
structure ResultsData where
  selectionFeaturesPath : String
  FSmethod : String
  FSparams : String
  selectedFeatures : String
  MLmethod : String
  MLparams : String
  yTrueTest : String
  yPredRegTest : String
  yPredClassTest : String
  yTrueVal : String
  yPredRegVal : String
  yPredClassVal : String
  accuracyTest : String
  precisionMicroTest : String
  precisionMacroTest : String
  recallMicroTest : String
  recallMacroTest : String
  f1MicroTest : String
  f1MacroTest : String
  r2Test : String
  rmseTest : String
  accuracyVal : String
  precisionMicroVal : String
  precisionMacroVal : String
  recallMicroVal : String
  recallMacroVal : String
  f1MicroVal : String
  f1MacroVal : String
  r2Val : String
  rmseVal : String

/-- `resultsDict` in the insertion order of lines 262-294. -/
def mkResultsDict (r : ResultsData) : List (String × String) :=
  [("selectionFeaturesPath", r.selectionFeaturesPath),
   ("FSmethod", r.FSmethod),
   ("FSparams", r.FSparams),
   ("selectedFeatures", r.selectedFeatures),
   ("MLmethod", r.MLmethod),
   ("MLparams", r.MLparams),
   ("yTrueTest", r.yTrueTest),
   ("yPredRegTest", r.yPredRegTest),
   ("yPredClassTest", r.yPredClassTest),
   ("yTrueVal", r.yTrueVal),
   ("yPredRegVal", r.yPredRegVal),
   ("yPredClassVal", r.yPredClassVal),
   ("accuracyTest", r.accuracyTest),
   ("precisionMicroTest", r.precisionMicroTest),
   ("precisionMacroTest", r.precisionMacroTest),
   ("recallMicroTest", r.recallMicroTest),
   ("recallMacroTest", r.recallMacroTest),
   ("f1MicroTest", r.f1MicroTest),
   ("f1MacroTest", r.f1MacroTest),
   ("r2Test", r.r2Test),
   ("rmseTest", r.rmseTest),
   ("accuracyVal", r.accuracyVal),
   ("precisionMicroVal", r.precisionMicroVal),
   ("precisionMacroVal", r.precisionMacroVal),
   ("recallMicroVal", r.recallMicroVal),
   ("recallMacroVal", r.recallMacroVal),
   ("f1MicroVal", r.f1MicroVal),
   ("f1MacroVal", r.f1MacroVal),
   ("r2Val", r.r2Val),
   ("rmseVal", r.rmseVal)]

/-- `header = list(resultsDict.keys())` (line 297). -/
def resultsKeys : List String :=
  ["selectionFeaturesPath", "FSmethod", "FSparams", "selectedFeatures",
   "MLmethod", "MLparams", "yTrueTest", "yPredRegTest", "yPredClassTest",
   "yTrueVal", "yPredRegVal", "yPredClassVal", "accuracyTest",
   "precisionMicroTest", "precisionMacroTest", "recallMicroTest",
   "recallMacroTest", "f1MicroTest", "f1MacroTest", "r2Test", "rmseTest",
   "accuracyVal", "precisionMicroVal", "precisionMacroVal",
   "recallMicroVal", "recallMacroVal", "f1MicroVal", "f1MacroVal",
   "r2Val", "rmseVal"]

/-- `write_results_to_csv` file effect (lines 296-310), on the results-log
contents modelled as `none` (no file) or `some rows`: append one data row,
writing a header row first only when the file did not exist. -/
def writeResultsToCsv (file : Option (List (List String))) (r : ResultsData) :
    List (List String) :=
  let dict := mkResultsDict r
  let header := dict.map (fun kv => kv.1)
  let row := dict.map (fun kv => kv.2)
  match file with
  | some content => content ++ [row]
  | none => [header, row]

/-- A concrete oracle: the constant-zero predictor with identity shuffle. -/
def constEnv : SKEnv where
  fitPredict := fun _ _ _ _ _ Xte => Xte.map (fun _ => 0)
  permute := fun _ n => List.range n
  bestParams := fun _ ps _ _ _ _ => ps
  fitPredict_length := by intro m s ps Xtr ytr Xte; simp
  permute_perm := by intro s n; exact List.Perm.refl _

/-- A second concrete oracle that agrees with `constEnv` whenever the model
is constructed with `random_state = 0` but differs at other seeds. -/
def altEnv : SKEnv where
  fitPredict := fun _ s _ _ _ Xte => Xte.map (fun _ => if s == 0 then 0 else 1)
  permute := fun _ n => List.range n
  bestParams := fun _ ps _ _ _ _ => ps
  fitPredict_length := by intro m s ps Xtr ytr Xte; simp
  permute_perm := by intro s n; exact List.Perm.refl _

/-- Concrete ten-patient feature table used by witnesses (all eight fixed
test identifiers plus the training patients 2 and 3). -/
def wSelX : List (ℤ × List ℚ) :=
  [(1, [0]), (8, [0]), (13, [0]), (20, [0]), (40, [0]), (44, [0]),
   (49, [0]), (55, [0]), (2, [1]), (3, [2])]

/-- Concrete outcome table used by witnesses. -/
def wManY : List (ℤ × ℚ) :=
  [(1, 1), (8, 1), (13, 0), (20, 1), (40, 0), (44, 1), (49, 0), (55, 1),
   (2, 1), (3, 0)]

/-- The output of the concrete fixed-mode run used by the C5 witness. -/
def w5out : List ℚ × List ℚ × List ℚ × List ℚ × Params :=
  (createEvaluateModel constEnv "RFreg" [("n_estimators", PVal.l ["10"])]
    wSelX wManY false "r2").getD ([], [], [], [], [])

/-- Concrete six-row training matrix used by the C3 witness. -/
def wXtr : List (List ℚ) := [[0], [1], [2], [3], [4], [5]]

/-- Concrete training labels used by the C3 witness. -/
def wYtr : List ℚ := [0, 1, 0, 1, 0, 1]

/-- The output of the concrete `validate_model` run used by the C3 witness. -/
def wRes : List ℚ × List ℚ :=
  (validateModel constEnv wXtr wYtr "RFreg" []).2.getD ([], [])

/-! ### Helper lemmas -/

theorem find?_map_setParam (k : String) (v : PVal) :
    ∀ ps : Params, ps.any (fun kv => kv.1 == k) = true →
      (ps.map (fun kv => if kv.1 == k then (k, v) else kv)).find?
        (fun kv => kv.1 == k) = some (k, v) := by
  intro ps
  induction ps with
  | nil => intro h; simp at h
  | cons a rest ih =>
    intro h
    cases hb : (a.1 == k) with
    | true =>
      rw [List.map_cons, if_pos hb, List.find?_cons_of_pos _ (by simp)]
    | false =>
      have h' : rest.any (fun kv => kv.1 == k) = true := by
        simp only [List.any_cons, hb, Bool.false_or] at h
        exact h
      rw [List.map_cons, if_neg (by simp [hb]), List.find?_cons_of_neg _ (by simp [hb])]
      exact ih h'

theorem lookupParam_setParam (ps : Params) (k : String) (v : PVal) :
    lookupParam (setParam ps k v) k = some v := by
  unfold lookupParam setParam
  by_cases h : ps.any (fun kv => kv.1 == k) = true
  · rw [if_pos h, find?_map_setParam k v ps h]
    rfl
  · rw [if_neg h]
    have hnone : ps.find? (fun kv => kv.1 == k) = none := by
      rw [List.find?_eq_none]
      intro kv hkv hk
      exact h (List.any_eq_true.mpr ⟨kv, hkv, hk⟩)
    rw [List.find?_append, hnone]
    simp

theorem resolveFixed_eq_map (ps : Params)
    (h : ∀ k vs, (k, PVal.l vs) ∈ ps → vs ≠ []) :
    resolveFixed ps = some (ps.map (fun kv => (kv.1, firstElem kv.2))) := by
  induction ps with
  | nil => rfl
  | cons kv rest ih =>
    have hrest : ∀ k vs, (k, PVal.l vs) ∈ rest → vs ≠ [] :=
      fun k vs hm => h k vs (List.mem_cons_of_mem _ hm)
    obtain ⟨k, v⟩ := kv
    cases v with
    | s x => simp [resolveFixed, firstElem, ih hrest]
    | l vs =>
      cases vs with
      | nil => exact absurd rfl (h k [] (List.mem_cons_self _ _))
      | cons x xs => simp [resolveFixed, firstElem, ih hrest]

/-! ### Claim C2: the train/test split is a strict disjoint bipartition -/

/-- C2: whenever `create_evaluate_model`'s split of lines 55-61 (embedded as
`splitCohort`, with `.loc` raising on a missing test identifier) computes a
train/test division of the cohort, the test set is exactly the fixed
eight-identifier list intersected with the cohort, the training set is its
complement within the cohort, the two are disjoint, and their union is the
cohort. -/
theorem c2_split_bipartition (cohort te tr : List ℤ)
    (h : splitCohort cohort = some (te, tr)) :
    te = testIds.filter (fun v => decide (v ∈ cohort)) ∧
    tr = cohort.filter (fun v => decide (v ∉ testIds)) ∧
    (∀ v : ℤ, ¬(v ∈ te ∧ v ∈ tr)) ∧
    (∀ v : ℤ, v ∈ cohort ↔ (v ∈ te ∨ v ∈ tr)) := by
  unfold splitCohort at h
  by_cases hall : testIds.all (fun t => decide (t ∈ cohort)) = true
  · rw [if_pos hall] at h
    have hmem : ∀ t ∈ testIds, t ∈ cohort := by
      intro t ht
      have := List.all_eq_true.mp hall t ht
      simpa using this
    obtain ⟨hte, htr⟩ := Prod.mk.injEq _ _ _ _ ▸ Option.some.injEq _ _ ▸ h
    refine ⟨?_, ?_, ?_, ?_⟩
    · rw [← hte]
      symm
      rw [List.filter_eq_self]
      intro t ht
      simpa using hmem t ht
    · exact htr.symm
    · intro v ⟨hv1, hv2⟩
      rw [← hte] at hv1
      rw [← htr] at hv2
      have := List.of_mem_filter hv2
      simp at this
      exact this hv1
    · intro v
      constructor
      · intro hv
        by_cases hvt : v ∈ testIds
        · exact Or.inl (hte ▸ hvt)
        · refine Or.inr (htr ▸ ?_)
          rw [List.mem_filter]
          exact ⟨hv, by simpa using hvt⟩
      · intro hv
        rcases hv with hv | hv
        · exact hmem v (hte ▸ hv)
        · exact List.mem_of_mem_filter (htr ▸ hv)
  · rw [if_neg hall] at h
    cases h

/-- Witness for C2 at a concrete ten-patient cohort. -/
theorem c2_split_bipartition_witness :
    testIds = testIds.filter
      (fun v => decide (v ∈ ([1, 8, 13, 20, 40, 44, 49, 55, 2, 3] : List ℤ))) :=
  (c2_split_bipartition [1, 8, 13, 20, 40, 44, 49, 55, 2, 3] testIds [2, 3]
    (by decide)).1

/-! ### Claim C6: unsupported method names -/

/-- C6: for every method name outside `RFreg`, `RFclass`, `LogReg`, each of
`search_model_params`, `validate_model` and `test_model` prints the
not-implemented message and returns `None` (no result value); the theorem
is quantified over every library oracle `env`, so no model construction,
fit or predict can influence the outcome of the call. -/
theorem c6_unsupported_method (env : SKEnv) (m : String)
    (h : methodSupported m = false) (Xtr Xte : List (List ℚ))
    (ytr yte : List ℚ) (ps : Params) (sc : String) :
    searchModelParams env Xtr ytr m ps sc =
      ([ConsoleOut.msg (notImplementedMsg m)], none) ∧
    validateModel env Xtr ytr m ps =
      ([ConsoleOut.msg (notImplementedMsg m)], none) ∧
    testModel env Xtr Xte ytr yte m ps =
      ([ConsoleOut.msg (notImplementedMsg m)], none) := by
  unfold searchModelParams validateModel testModel
  simp [h]

/-- Witness for C6 at the concrete unsupported method name `"SVM"`. -/
theorem c6_unsupported_method_witness :
    searchModelParams constEnv [] [] "SVM" [] "r2" =
      ([ConsoleOut.msg (notImplementedMsg "SVM")], none) ∧
    validateModel constEnv [] [] "SVM" [] =
      ([ConsoleOut.msg (notImplementedMsg "SVM")], none) ∧
    testModel constEnv [] [] [] [] "SVM" [] =
      ([ConsoleOut.msg (notImplementedMsg "SVM")], none) :=
  c6_unsupported_method constEnv "SVM" (by decide) [] [] [] [] [] "r2"

/-! ### Claim C7: the results log is append-only -/

/-- C7: `write_results_to_csv` writes a header row equal to the full
metadata/metric key set followed by one data row when the log file does not
exist, and appends exactly one data row (no header) when it does; the
existing contents are a prefix of the new contents, so they are never
modified or deleted. -/
theorem c7_results_append (r : ResultsData) :
    writeResultsToCsv none r =
      [resultsKeys, (mkResultsDict r).map (fun kv => kv.2)] ∧
    (∀ c, writeResultsToCsv (some c) r =
        c ++ [(mkResultsDict r).map (fun kv => kv.2)] ∧
      c <+: writeResultsToCsv (some c) r) ∧
    (mkResultsDict r).map (fun kv => kv.1) = resultsKeys := by
  refine ⟨rfl, fun c => ⟨rfl, ?_⟩, rfl⟩
  exact List.prefix_append _ _

/-! ### Claim C8: grid-search fold count -/

/-- C8: the `cv` argument passed to the grid search is
`min(5, floor(trainingRowCount / 2))`; it is `5` whenever the training set
has at least 10 rows, and `floor(n / 2)` for fewer rows.  The last conjunct
records that `search_model_params` hands exactly `cvFolds ytr.length` to
the grid-search oracle. -/
theorem c8_cv_fold_count (n : ℕ) :
    cvFolds n = min 5 (n / 2) ∧
    (10 ≤ n → cvFolds n = 5) ∧
    (n < 10 → cvFolds n = n / 2) ∧
    (∀ (env : SKEnv) (Xtr : List (List ℚ)) (ytr : List ℚ) (m : String)
        (ps : Params) (sc : String), methodSupported m = true →
      (searchModelParams env Xtr ytr m ps sc).2 =
        some (env.bestParams m ps (cvFolds ytr.length) sc Xtr ytr)) := by
  refine ⟨rfl, ?_, ?_, ?_⟩
  · intro h
    unfold cvFolds
    omega
  · intro h
    unfold cvFolds
    omega
  · intro env Xtr ytr m ps sc hm
    unfold searchModelParams
    simp [hm]

/-- Witness for C8 at the concrete training sizes 12 and 7. -/
theorem c8_cv_fold_count_witness : cvFolds 12 = 5 ∧ cvFolds 7 = 3 :=
  ⟨(c8_cv_fold_count 12).2.1 (by decide), by
    have h := (c8_cv_fold_count 7).2.2.1 (by decide)
    simpa using h⟩

/-! ### Claim C9: fixed-mode parameter resolution -/

/-- C9: in fixed mode, the loop of lines 74-76 maps every list value to its
first element and keeps every non-list value unchanged, so (on parameter
dictionaries whose candidate lists are non-empty, the only ones `v[0]`
accepts) the resolved dictionary contains only scalars and agrees with the
input on all non-list entries. -/
theorem c9_fixed_resolution (ps : Params)
    (h : ∀ k vs, (k, PVal.l vs) ∈ ps → vs ≠ []) :
    resolveFixed ps = some (ps.map (fun kv => (kv.1, firstElem kv.2))) ∧
    (∀ kv ∈ ps.map (fun kv => (kv.1, firstElem kv.2)), kv.2.isScalar = true) ∧
    (∀ (i : ℕ) (k : String) (x : String), ps[i]? = some (k, PVal.s x) →
      (ps.map (fun kv => (kv.1, firstElem kv.2)))[i]? = some (k, PVal.s x)) := by
  refine ⟨resolveFixed_eq_map ps h, ?_, ?_⟩
  · intro kv hkv
    rw [List.mem_map] at hkv
    obtain ⟨ab, hab, rfl⟩ := hkv
    match hv : ab.2 with
    | PVal.s x => simp [firstElem, PVal.isScalar]
    | PVal.l vs =>
      have hne : vs ≠ [] := h ab.1 vs (by rw [← hv]; exact hab)
      match vs, hne with
      | x :: xs, _ => simp [firstElem, PVal.isScalar]
  · intro i k x hi
    rw [List.getElem?_map, hi]
    rfl

/-- Witness for C9 at a concrete two-entry parameter dictionary. -/
theorem c9_fixed_resolution_witness :
    resolveFixed [("a", PVal.l ["1", "2"]), ("b", PVal.s "z")] =
      some [("a", PVal.s "1"), ("b", PVal.s "z")] := by
  have h := (c9_fixed_resolution [("a", PVal.l ["1", "2"]), ("b", PVal.s "z")]
    (by
      intro k vs hm
      simp only [List.mem_cons, List.not_mem_nil, or_false, Prod.mk.injEq] at hm
      rcases hm with ⟨_, hv⟩ | ⟨_, hv⟩
      · obtain rfl := (PVal.l.injEq _ _ ▸ hv)
        simp
      · cases hv)).1
  simpa using h

/-! ### Claim C10: predicted classes are nearest integers -/

theorem npRound_nearest (q : ℚ) (z : ℤ) :
    |(npRound q : ℚ) - q| ≤ |(z : ℚ) - q| := by
  have hf : (⌊q⌋ : ℚ) ≤ q := Int.floor_le q
  have hf1 : q < (⌊q⌋ : ℚ) + 1 := Int.lt_floor_add_one q
  have hz1 : q - (z : ℚ) ≤ |(z : ℚ) - q| := by
    rw [abs_sub_comm]
    exact le_abs_self _
  have hz2 : (z : ℚ) - q ≤ |(z : ℚ) - q| := le_abs_self _
  have hzcases : (z : ℚ) ≤ (⌊q⌋ : ℚ) ∨ (⌊q⌋ : ℚ) + 1 ≤ (z : ℚ) := by
    rcases le_or_lt z ⌊q⌋ with hz | hz
    · exact Or.inl (by exact_mod_cast hz)
    · exact Or.inr (by exact_mod_cast hz)
  have habs1 : |(⌊q⌋ : ℚ) - q| = q - (⌊q⌋ : ℚ) := by
    rw [abs_sub_comm]
    exact abs_of_nonneg (by linarith)
  have habs2 : |((⌊q⌋ : ℚ) + 1) - q| = (⌊q⌋ : ℚ) + 1 - q :=
    abs_of_nonneg (by linarith)
  unfold npRound
  dsimp only
  split_ifs with h1 h2 h3
  · rw [habs1]
    rcases hzcases with hc | hc
    · linarith
    · linarith
  · rw [Int.cast_add, Int.cast_one, habs2]
    rcases hzcases with hc | hc
    · linarith
    · linarith
  · have hr : q - (⌊q⌋ : ℚ) = 1 / 2 := by linarith
    rw [habs1]
    rcases hzcases with hc | hc
    · linarith
    · linarith
  · have hr : q - (⌊q⌋ : ℚ) = 1 / 2 := by linarith
    rw [Int.cast_add, Int.cast_one, habs2]
    rcases hzcases with hc | hc
    · linarith
    · linarith

/-- C10: the predicted-class array (`np.round(...).astype(int)`, lines 230
and 258-259) is the elementwise `npRound` of the raw prediction array, and
`npRound` maps every rational to an integer at minimal distance: no integer
is strictly closer. -/
theorem c10_round_nearest (ys : List ℚ) (i : ℕ) (q : ℚ)
    (hq : ys[i]? = some q) (z : ℤ) :
    (toPredClass ys)[i]? = some (npRound q) ∧
    |(npRound q : ℚ) - q| ≤ |(z : ℚ) - q| := by
  constructor
  · unfold toPredClass
    rw [List.getElem?_map, hq]
    rfl
  · exact npRound_nearest q z

/-- Witness for C10 at the tie `1/2` against the competing integer `1`. -/
theorem c10_round_nearest_witness :
    (toPredClass [1 / 2, 3 / 2])[0]? = some (npRound (1 / 2)) ∧
    |(npRound (1 / 2) : ℚ) - 1 / 2| ≤ |((1 : ℤ) : ℚ) - 1 / 2| :=
  c10_round_nearest [1 / 2, 3 / 2] 0 (1 / 2) rfl 1

/-! ### Claim C5: the returned parameter dictionary -/

/-- C5: whenever `create_evaluate_model` returns, its fifth output is the
caller's parameter dictionary transformed in place — in fixed mode every
list value collapsed to its first element (`resolveFixed`), in search mode
the dictionary rebound to the grid-search result — with the extra
`scoringOptiMetric` key stored into it (lines 63-83); it is not a fresh
copy restricted to model hyperparameters, and the extra key is always
present in the returned dictionary. -/
theorem c5_params_returned (env : SKEnv) (m : String) (ps : Params)
    (selX : List (ℤ × List ℚ)) (manY : List (ℤ × ℚ)) (sc : String) :
    (∀ out, createEvaluateModel env m ps selX manY false sc = some out →
      ∃ qs, resolveFixed ps = some qs ∧
        out.2.2.2.2 = setParam qs "scoringOptiMetric" (PVal.s sc) ∧
        lookupParam out.2.2.2.2 "scoringOptiMetric" = some (PVal.s sc)) ∧
    (∀ te tr out, splitCohort (cohortOf selX manY) = some (te, tr) →
      createEvaluateModel env m ps selX manY true sc = some out →
      out.2.2.2.2 = setParam
        (env.bestParams m (listifyParams ps)
          (cvFolds (selectRows (filteredOutcomes manY) tr).length) sc
          (selectRows selX tr) (selectRows (filteredOutcomes manY) tr))
        "scoringOptiMetric" (PVal.s sc) ∧
      lookupParam out.2.2.2.2 "scoringOptiMetric" = some (PVal.s sc)) := by
  constructor
  · intro out hout
    unfold createEvaluateModel at hout
    rcases hsplit : splitCohort (cohortOf selX manY) with _ | ⟨te, tr⟩
    · rw [hsplit] at hout
      cases hout
    · rw [hsplit] at hout
      simp only [Bool.false_eq_true, if_false] at hout
      split at hout
      · cases hout
      next qs hres =>
        split at hout
        · cases hout
        next yTV yPV hval =>
          split at hout
          · cases hout
          next yTT yPT htst =>
            injection hout with h
            subst h
            exact ⟨qs, hres, rfl, lookupParam_setParam _ _ _⟩
  · intro te tr out hsplit hout
    unfold createEvaluateModel at hout
    rw [hsplit] at hout
    simp only [if_true] at hout
    unfold searchModelParams at hout
    rcases hm : methodSupported m with _ | _
    · rw [hm] at hout
      simp at hout
    · rw [hm] at hout
      simp only [if_true] at hout
      split at hout
      · cases hout
      next yTV yPV hval =>
        split at hout
        · cases hout
        next yTT yPT htst =>
          injection hout with h
          subst h
          exact ⟨rfl, lookupParam_setParam _ _ _⟩

/-- Witness for C5: a concrete successful fixed-mode run. -/
theorem c5_params_returned_witness :
    ∃ qs, resolveFixed [("n_estimators", PVal.l ["10"])] = some qs ∧
      w5out.2.2.2.2 = setParam qs "scoringOptiMetric" (PVal.s "r2") ∧
      lookupParam w5out.2.2.2.2 "scoringOptiMetric" = some (PVal.s "r2") :=
  (c5_params_returned constEnv "RFreg" [("n_estimators", PVal.l ["10"])]
    wSelX wManY "r2").1 w5out (by rfl)

/-! ### Claim C4: fixed-mode runs are reproducible -/

theorem validateModel_congr (env1 env2 : SKEnv)
    (hfit : ∀ m ps Xtr ytr Xte,
      env1.fitPredict m 0 ps Xtr ytr Xte = env2.fitPredict m 0 ps Xtr ytr Xte)
    (hperm : ∀ n, env1.permute 15 n = env2.permute 15 n)
    (Xtr : List (List ℚ)) (ytr : List ℚ) (m : String) (ps : Params) :
    validateModel env1 Xtr ytr m ps = validateModel env2 Xtr ytr m ps := by
  have hstep : foldStep env1 m ps (XsOf m Xtr) ytr = foldStep env2 m ps (XsOf m Xtr) ytr := by
    funext acc c
    unfold foldStep predFor
    rw [hfit]
  unfold validateModel foldAccum
  simp only [hperm, hstep]

theorem testModel_congr (env1 env2 : SKEnv)
    (hfit : ∀ m ps Xtr ytr Xte,
      env1.fitPredict m 0 ps Xtr ytr Xte = env2.fitPredict m 0 ps Xtr ytr Xte)
    (Xtr Xte : List (List ℚ)) (ytr yte : List ℚ) (m : String) (ps : Params) :
    testModel env1 Xtr Xte ytr yte m ps = testModel env2 Xtr Xte ytr yte m ps := by
  unfold testModel
  simp only [hfit]

/-- C4: in fixed mode (`optimizeParams = False`) the outputs of
`create_evaluate_model` — the true/predicted arrays for test and
validation and the returned parameter dictionary, hence every metric
computed from them — depend only on the inputs and on the library's
behaviour at the fixed seeds actually used (`random_state = 0` for every
model constructor and `random_state = 15` for the fold shuffle); two
oracles agreeing there produce identical outputs, so re-running with
identical inputs and seeds is reproducible. -/
theorem c4_fixed_mode_deterministic (env1 env2 : SKEnv)
    (hfit : ∀ m ps Xtr ytr Xte,
      env1.fitPredict m 0 ps Xtr ytr Xte = env2.fitPredict m 0 ps Xtr ytr Xte)
    (hperm : ∀ n, env1.permute 15 n = env2.permute 15 n)
    (m : String) (ps : Params) (selX : List (ℤ × List ℚ))
    (manY : List (ℤ × ℚ)) (sc : String) :
    createEvaluateModel env1 m ps selX manY false sc =
      createEvaluateModel env2 m ps selX manY false sc := by
  have hv : ∀ a b c d, validateModel env1 a b c d = validateModel env2 a b c d :=
    fun a b c d => validateModel_congr env1 env2 hfit hperm a b c d
  have ht : ∀ a b c d e f, testModel env1 a b c d e f = testModel env2 a b c d e f :=
    fun a b c d e f => testModel_congr env1 env2 hfit a b c d e f
  unfold createEvaluateModel
  rcases splitCohort (cohortOf selX manY) with _ | ⟨te, tr⟩
  · rfl
  · simp only [Bool.false_eq_true, if_false, hv, ht]

/-- Witness for C4: the two concrete oracles `constEnv` and `altEnv` agree
at the seeds used and yield identical runs on the concrete cohort. -/
theorem c4_fixed_mode_deterministic_witness :
    createEvaluateModel constEnv "RFreg" [("n_estimators", PVal.s "10")]
        wSelX wManY false "r2" =
      createEvaluateModel altEnv "RFreg" [("n_estimators", PVal.s "10")]
        wSelX wManY false "r2" :=
  c4_fixed_mode_deterministic constEnv altEnv
    (by
      intro m ps Xtr ytr Xte
      simp [constEnv, altEnv])
    (fun n => rfl) "RFreg" [("n_estimators", PVal.s "10")] wSelX wManY "r2"

/-! ### Claim C1: test-set standardization constants -/

/-- C1 (divergence): on the one-feature training matrix with column
`[0, 1, 2]` (mean 1, sample standard deviation 1) and test matrix `[[4]]`,
the code of `test_model` lines 204-205 (embedded as
`standardizeTrainTest`) leaves the test value at `4`, because after the
rebinding of `Xtrain` the constants are taken from the already standardized
training matrix (mean 0, standard deviation 1); the raw-training-statistics
transform that the claim states (embedded as `claimedTestStandardization`)
yields `(4 - 1) / 1 = 3` instead. -/
theorem c1_test_standardization_bug :
    (standardizeTrainTest [[0], [1], [2]] [[4]]).2 = [[4]] ∧
    claimedTestStandardization [[0], [1], [2]] [[4]] = [[3]] ∧
    ([[(4 : ℚ)]] : List (List ℚ)) ≠ [[3]] := by
  refine ⟨?_, ?_, by norm_num⟩
  · norm_num [standardizeTrainTest, standardizeMatrix, colsOf, colMean, colVar,
      colStd, ratSqrt, stdRowWith, List.range_succ]
  · norm_num [claimedTestStandardization, colsOf, colMean, colVar,
      colStd, ratSqrt, stdRowWith, List.range_succ]

/-! ### Claim C3: the 5-fold loop, lemmas on the fold geometry -/

theorem sum_chunkSizes_aux (c m : ℕ) :
    ∀ k, ((List.range k).map (fun i => c + if i < m then 1 else 0)).sum = k * c + min m k := by
  intro k
  induction k with
  | zero => simp
  | succ k ih =>
    rw [List.range_succ, List.map_append, List.sum_append, ih, List.map_cons,
      List.map_nil, List.sum_cons, List.sum_nil]
    by_cases h : k < m
    · rw [min_eq_right (Nat.le_of_lt h), min_eq_right h, if_pos h]
      have hkc : (k + 1) * c = k * c + c := by ring
      omega
    · have hm : m ≤ k := Nat.le_of_not_lt h
      rw [min_eq_left hm, min_eq_left (le_trans hm (Nat.le_succ k)), if_neg h]
      have hkc : (k + 1) * c = k * c + c := by ring
      omega

theorem sum_chunkSizes (n k : ℕ) (hk : 0 < k) : (chunkSizes n k).sum = n := by
  unfold chunkSizes
  rw [sum_chunkSizes_aux]
  have h1 : k * (n / k) + n % k = n := Nat.div_add_mod n k
  have h2 : n % k < k := Nat.mod_lt _ hk
  rw [min_eq_left (le_of_lt h2)]
  omega

theorem flatten_splitIntoChunks {α : Type} :
    ∀ (ss : List ℕ) (xs : List α), ss.sum = xs.length →
      (splitIntoChunks xs ss).flatten = xs := by
  intro ss
  induction ss with
  | nil =>
    intro xs h
    simp only [List.sum_nil] at h
    rw [List.eq_nil_of_length_eq_zero h.symm]
    rfl
  | cons s ss ih =>
    intro xs h
    simp only [List.sum_cons] at h
    have hlen : ss.sum = (xs.drop s).length := by
      rw [List.length_drop]
      omega
    unfold splitIntoChunks
    rw [List.flatten_cons, ih (xs.drop s) hlen, List.take_append_drop]

theorem flatten_perm_of_forall₂ {xs ys : List (List ℕ)}
    (h : List.Forall₂ (fun a b => a.Perm b) xs ys) : xs.flatten.Perm ys.flatten := by
  induction h with
  | nil => exact List.Perm.refl _
  | cons h1 _ ih =>
    rw [List.flatten_cons, List.flatten_cons]
    exact h1.append ih

theorem kfold_flatten_perm (perm : List ℕ) (k : ℕ) (hk : 0 < k) :
    (kfoldTestFolds perm k).flatten.Perm perm := by
  unfold kfoldTestFolds
  have h2 : List.Forall₂ (fun a b => a.Perm b)
      ((splitIntoChunks perm (chunkSizes perm.length k)).map (List.insertionSort (· ≤ ·)))
      (splitIntoChunks perm (chunkSizes perm.length k)) := by
    rw [List.forall₂_map_left_iff]
    rw [List.forall₂_same]
    intro a _
    exact List.perm_insertionSort _ a
  have h3 := flatten_perm_of_forall₂ h2
  rw [flatten_splitIntoChunks (chunkSizes perm.length k) perm
    (sum_chunkSizes perm.length k hk)] at h3
  exact h3

/-! ### Claim C3: lemmas on scatter assignment -/

theorem scatterWrite_cons (a : List ℚ) (p : ℕ × ℚ) (ps : List (ℕ × ℚ)) :
    scatterWrite a (p :: ps) = scatterWrite (a.set p.1 p.2) ps := rfl

theorem scatterWrite_length (a : List ℚ) (ps : List (ℕ × ℚ)) :
    (scatterWrite a ps).length = a.length := by
  induction ps generalizing a with
  | nil => rfl
  | cons p ps ih => rw [scatterWrite_cons, ih, List.length_set]

theorem scatterWrite_getElem?_of_not_mem (a : List ℚ) (ps : List (ℕ × ℚ)) (i : ℕ)
    (h : ∀ p ∈ ps, p.1 ≠ i) : (scatterWrite a ps)[i]? = a[i]? := by
  induction ps generalizing a with
  | nil => rfl
  | cons p ps ih =>
    rw [scatterWrite_cons, ih _ (fun q hq => h q (List.mem_cons_of_mem _ hq))]
    rw [List.getElem?_set]
    rw [if_neg (h p (List.mem_cons_self _ _))]

theorem scatterWrite_getElem?_congr (a b : List ℚ) (ps : List (ℕ × ℚ)) (i : ℕ)
    (hlen : a.length = b.length) (hi : a[i]? = b[i]?) :
    (scatterWrite a ps)[i]? = (scatterWrite b ps)[i]? := by
  induction ps generalizing a b with
  | nil => exact hi
  | cons p ps ih =>
    rw [scatterWrite_cons, scatterWrite_cons]
    refine ih _ _ (by rw [List.length_set, List.length_set, hlen]) ?_
    rw [List.getElem?_set, List.getElem?_set, hlen, hi]

theorem scatterWrite_getElem?_of_getElem (a : List ℚ) (ps : List (ℕ × ℚ))
    (j i : ℕ) (v : ℚ) (hnd : (ps.map Prod.fst).Nodup) (hj : ps[j]? = some (i, v))
    (hi : i < a.length) : (scatterWrite a ps)[i]? = some v := by
  induction ps generalizing a j with
  | nil => cases hj
  | cons p ps ih =>
    rw [scatterWrite_cons]
    rw [List.map_cons, List.nodup_cons] at hnd
    cases j with
    | zero =>
      rw [List.getElem?_cons_zero] at hj
      injection hj with hj
      have hp1 : p.1 = i := by rw [hj]
      have hp2 : p.2 = v := by rw [hj]
      have hnotin : ∀ q ∈ ps, q.1 ≠ i := by
        intro q hq hqi
        apply hnd.1
        rw [hp1, ← hqi]
        exact List.mem_map_of_mem Prod.fst hq
      rw [scatterWrite_getElem?_of_not_mem _ _ _ hnotin, hp1, hp2]
      rw [List.getElem?_set, if_pos rfl, if_pos hi]
    | succ j =>
      rw [List.getElem?_cons_succ] at hj
      exact ih _ j hnd.2 hj (by rw [List.length_set]; exact hi)

theorem scatterWrite_comm (a : List ℚ) (u v : List (ℕ × ℚ))
    (h : ∀ p ∈ u, ∀ q ∈ v, p.1 ≠ q.1) :
    scatterWrite (scatterWrite a u) v = scatterWrite (scatterWrite a v) u := by
  apply List.ext_getElem?
  intro i
  by_cases hu : ∀ p ∈ u, p.1 ≠ i
  · rw [scatterWrite_getElem?_congr (scatterWrite a u) a v i (scatterWrite_length _ _)
      (scatterWrite_getElem?_of_not_mem _ _ _ hu)]
    rw [scatterWrite_getElem?_of_not_mem _ _ _ hu]
  · push_neg at hu
    obtain ⟨p, hp, hpi⟩ := hu
    have hv : ∀ q ∈ v, q.1 ≠ i := fun q hq hqi => h p hp q hq (hpi.trans hqi.symm)
    rw [scatterWrite_getElem?_of_not_mem _ _ _ hv]
    rw [scatterWrite_getElem?_congr (scatterWrite a v) a u i (scatterWrite_length _ _)
      (scatterWrite_getElem?_of_not_mem _ _ _ hv)]

theorem scatterAll_cons (a : List ℚ) (w : List (ℕ × ℚ)) (ws : List (List (ℕ × ℚ))) :
    scatterAll a (w :: ws) = scatterAll (scatterWrite a w) ws := rfl

theorem scatterAll_length (a : List ℚ) (ws : List (List (ℕ × ℚ))) :
    (scatterAll a ws).length = a.length := by
  induction ws generalizing a with
  | nil => rfl
  | cons w ws ih => rw [scatterAll_cons, ih, scatterWrite_length]

theorem scatterAll_getElem?_of_not_mem (a : List ℚ) (ws : List (List (ℕ × ℚ))) (i : ℕ)
    (h : ∀ w ∈ ws, ∀ p ∈ w, p.1 ≠ i) : (scatterAll a ws)[i]? = a[i]? := by
  induction ws generalizing a with
  | nil => rfl
  | cons w ws ih =>
    rw [scatterAll_cons, ih _ (fun w' hw' => h w' (List.mem_cons_of_mem _ hw'))]
    exact scatterWrite_getElem?_of_not_mem _ _ _ (h w (List.mem_cons_self _ _))

theorem scatterAll_getElem?_of_mem (a : List ℚ) (pre post : List (List (ℕ × ℚ)))
    (u : List (ℕ × ℚ)) (j i : ℕ) (v : ℚ) (hnd : (u.map Prod.fst).Nodup)
    (hj : u[j]? = some (i, v)) (hi : i < a.length)
    (hpost : ∀ w ∈ post, ∀ p ∈ w, p.1 ≠ i) :
    (scatterAll a (pre ++ u :: post))[i]? = some v := by
  have hsplit : scatterAll a (pre ++ u :: post) =
      scatterAll (scatterWrite (scatterAll a pre) u) post := by
    unfold scatterAll
    rw [List.foldl_append]
    rfl
  rw [hsplit, scatterAll_getElem?_of_not_mem _ _ _ hpost]
  exact scatterWrite_getElem?_of_getElem _ _ j i v hnd hj
    (by rw [scatterAll_length]; exact hi)

theorem scatterAll_perm (a : List ℚ) (ws ws' : List (List (ℕ × ℚ)))
    (hp : ws'.Perm ws)
    (hdisj : ws.Pairwise (fun u v => ∀ p ∈ u, ∀ q ∈ v, p.1 ≠ q.1)) :
    scatterAll a ws' = scatterAll a ws := by
  have hsym : Symmetric (fun u v : List (ℕ × ℚ) => ∀ p ∈ u, ∀ q ∈ v, p.1 ≠ q.1) :=
    fun u v h p hp q hq => (h q hq p hp).symm
  refine hp.foldl_eq' ?_ a
  intro x hx y hy z
  by_cases hxy : x = y
  · subst hxy
    rfl
  · exact scatterWrite_comm z x y
      (hdisj.forall hsym (hp.subset hx) (hp.subset hy) hxy)

/-! ### Claim C3: bridging `validate_model`'s loop to scatter assignment -/

theorem XsOf_length (m : String) (Xtr : List (List ℚ)) :
    (XsOf m Xtr).length = Xtr.length := by
  unfold XsOf standardizeMatrix
  split <;> simp

theorem selectIdx_length {α : Type} (xs : List α) (idx : List ℕ)
    (h : ∀ i ∈ idx, i < xs.length) : (selectIdx xs idx).length = idx.length := by
  induction idx with
  | nil => rfl
  | cons i idx ih =>
    have hlt := h i (List.mem_cons_self _ _)
    have hstep : selectIdx xs (i :: idx) = xs[i] :: selectIdx xs idx := by
      unfold selectIdx
      simp [List.filterMap_cons, List.getElem?_eq_getElem hlt]
    rw [hstep, List.length_cons,
      ih (fun j hj => h j (List.mem_cons_of_mem _ hj)), List.length_cons]

theorem predFor_length (env : SKEnv) (m : String) (ps : Params)
    (Xs : List (List ℚ)) (ytr : List ℚ) (c : List ℕ)
    (h : ∀ i ∈ c, i < Xs.length) :
    (predFor env m ps Xs ytr c).length = c.length := by
  unfold predFor
  rw [env.fitPredict_length, selectIdx_length _ _ h]

theorem foldl_pair {β γ δ : Type} (g1 : β → δ → β) (g2 : γ → δ → γ) :
    ∀ (l : List δ) (a : β) (b : γ),
      l.foldl (fun acc c => (g1 acc.1 c, g2 acc.2 c)) (a, b) =
        (l.foldl g1 a, l.foldl g2 b) := by
  intro l
  induction l with
  | nil => intro a b; rfl
  | cons c l ih => intro a b; exact ih _ _

theorem foldAccum_eq_scatterAll (env : SKEnv) (m : String) (ps : Params)
    (Xs : List (List ℚ)) (ytr : List ℚ) (folds : List (List ℕ)) :
    foldAccum env m ps Xs ytr folds =
      (scatterAll (List.replicate ytr.length 0)
        (folds.map (fun c => c.zip (trueFor ytr c))),
       scatterAll (List.replicate ytr.length 0)
        (folds.map (fun c => c.zip (predFor env m ps Xs ytr c)))) := by
  unfold foldAccum scatterAll
  rw [List.foldl_map, List.foldl_map]
  show List.foldl
      (fun acc c => (scatterWrite acc.1 (c.zip (trueFor ytr c)),
        scatterWrite acc.2 (c.zip (predFor env m ps Xs ytr c))))
      (List.replicate ytr.length 0, List.replicate ytr.length 0) folds = _
  exact foldl_pair (fun b c => scatterWrite b (c.zip (trueFor ytr c)))
    (fun b c => scatterWrite b (c.zip (predFor env m ps Xs ytr c))) folds _ _

/-- C3: for every training set accepted by the fold splitter, the held-out
folds of `validate_model`'s shuffled 5-fold loop partition the training
index set: their concatenation is a permutation of `range n` (every row in
exactly one fold, no duplicates, with a unique containing fold per index);
the prediction array holds, at each original row position, exactly the
out-of-fold prediction of that row's fold; and the accumulated result is
invariant under permuting the fold iteration order. -/
theorem c3_kfold_partition (env : SKEnv) (Xtr : List (List ℚ)) (ytr : List ℚ)
    (m : String) (ps : Params) (res : List ℚ × List ℚ)
    (h5 : 5 ≤ Xtr.length) (hlen : ytr.length = Xtr.length)
    (hres : (validateModel env Xtr ytr m ps).2 = some res) :
    (kfoldTestFolds (env.permute 15 Xtr.length) 5).flatten.Perm
      (List.range Xtr.length) ∧
    (∀ i, i < Xtr.length →
      ∃! t, t ∈ kfoldTestFolds (env.permute 15 Xtr.length) 5 ∧ i ∈ t) ∧
    (∀ t ∈ kfoldTestFolds (env.permute 15 Xtr.length) 5, ∀ (j i : ℕ), t[j]? = some i →
      res.2[i]? = (predFor env m ps (XsOf m Xtr) ytr t)[j]?) ∧
    (∀ folds', folds'.Perm (kfoldTestFolds (env.permute 15 Xtr.length) 5) →
      foldAccum env m ps (XsOf m Xtr) ytr folds' = res) := by
  rcases hmm : methodSupported m with _ | _
  · exfalso
    unfold validateModel at hres
    rw [hmm] at hres
    simp at hres
  have hXs : (XsOf m Xtr).length = Xtr.length := XsOf_length m Xtr
  have hpl : (env.permute 15 Xtr.length).length = Xtr.length :=
    (env.permute_perm 15 Xtr.length).length_eq.trans (List.length_range _)
  have hflat : (kfoldTestFolds (env.permute 15 Xtr.length) 5).flatten.Perm
      (List.range Xtr.length) :=
    (kfold_flatten_perm _ 5 (by norm_num)).trans (env.permute_perm 15 Xtr.length)
  have hnd : (kfoldTestFolds (env.permute 15 Xtr.length) 5).flatten.Nodup :=
    (hflat.nodup_iff).mpr (List.nodup_range _)
  obtain ⟨hInner, hPairDisj⟩ := List.nodup_flatten.mp hnd
  have hsym : Symmetric (List.Disjoint (α := ℕ)) := fun u v h => h.symm
  have hmemn : ∀ t ∈ kfoldTestFolds (env.permute 15 Xtr.length) 5, ∀ i ∈ t,
      i < Xtr.length := by
    intro t hc i hic
    exact List.mem_range.mp (hflat.subset (List.mem_flatten.mpr ⟨t, hc, hic⟩))
  have hres_eq : res = foldAccum env m ps (XsOf m Xtr) ytr
      (kfoldTestFolds (env.permute 15 Xtr.length) 5) := by
    unfold validateModel at hres
    rw [hmm, if_pos rfl] at hres
    dsimp only at hres
    rw [hXs] at hres
    injection hres with h
    exact h.symm
  refine ⟨hflat, ?_, ?_, ?_⟩
  · intro i hi
    obtain ⟨t, hc, hic⟩ :=
      List.mem_flatten.mp ((hflat.mem_iff).mpr (List.mem_range.mpr hi))
    refine ⟨t, ⟨hc, hic⟩, ?_⟩
    rintro t' ⟨hc', hic'⟩
    by_contra hne
    exact (hPairDisj.forall hsym hc' hc hne) hic' hic
  · intro t hc j i hj
    have hic : i ∈ t := List.getElem?_mem hj
    have hin : i < Xtr.length := hmemn t hc i hic
    have hjlt : j < t.length := by
      by_contra hjl
      rw [List.getElem?_eq_none (le_of_not_lt hjl)] at hj
      cases hj
    have hclen : (predFor env m ps (XsOf m Xtr) ytr t).length = t.length :=
      predFor_length env m ps _ ytr t (fun i hi => hXs ▸ hmemn t hc i hi)
    obtain ⟨v, hv⟩ : ∃ v, (predFor env m ps (XsOf m Xtr) ytr t)[j]? = some v := by
      rw [List.getElem?_eq_getElem (hclen ▸ hjlt)]
      exact ⟨_, rfl⟩
    obtain ⟨pre, post, hdec⟩ := List.append_of_mem hc
    rw [hres_eq, foldAccum_eq_scatterAll]
    dsimp only
    rw [hv, hdec, List.map_append, List.map_cons]
    apply scatterAll_getElem?_of_mem
    · rw [List.map_fst_zip _ _ (le_of_eq hclen.symm)]
      exact hInner t hc
    · exact List.getElem?_zip_eq_some.mpr ⟨hj, hv⟩
    · rw [List.length_replicate, hlen]
      exact hin
    · intro w hw p hp hpi
      obtain ⟨t', hc', rfl⟩ := List.mem_map.mp hw
      have hdisj : t.Disjoint t' := by
        have hP := hPairDisj
        rw [hdec, List.pairwise_append] at hP
        exact (List.pairwise_cons.mp hP.2.1).1 t' hc'
      exact hdisj hic (hpi ▸ (List.of_mem_zip hp).1)
  · intro folds' hp
    rw [hres_eq]
    unfold foldAccum
    refine hp.foldl_eq' ?_ _
    intro x hx y hy z
    by_cases hxy : x = y
    · subst hxy
      rfl
    · have hdisj : x.Disjoint y :=
        hPairDisj.forall hsym (hp.subset hx) (hp.subset hy) hxy
      have hkey : ∀ (vx vy : List ℚ), ∀ p ∈ x.zip vx, ∀ q ∈ y.zip vy,
          p.1 ≠ q.1 := by
        intro vx vy p hpz q hqz hpq
        exact hdisj (List.of_mem_zip hpz).1 (hpq ▸ (List.of_mem_zip hqz).1)
      show (scatterWrite (scatterWrite z.1 (x.zip (trueFor ytr x))) (y.zip (trueFor ytr y)),
          scatterWrite (scatterWrite z.2 (x.zip (predFor env m ps (XsOf m Xtr) ytr x)))
            (y.zip (predFor env m ps (XsOf m Xtr) ytr y))) = _
      rw [scatterWrite_comm z.1 _ _ (hkey _ _), scatterWrite_comm z.2 _ _ (hkey _ _)]
      rfl

/-- Witness for C3: a concrete six-row training set under the identity
shuffle. -/
theorem c3_kfold_partition_witness :
    (kfoldTestFolds (constEnv.permute 15 wXtr.length) 5).flatten.Perm
      (List.range wXtr.length) :=
  (c3_kfold_partition constEnv wXtr wYtr "RFreg" [] wRes (by decide) (by decide)
    (by rfl)).1
